import Mathlib

/-!
Shallow embedding of `cloudformation_seed/cfn_template.py` (the Template
Collection & Resolution Engine): path manipulation used by
`CloudformationTemplate.build_s3_key`, the stack-manifest resolution
`CloudformationCollection.parse_stacks`, collection construction
(`CloudformationCollection.__init__`), the lookups `list_deployable` and
`find_template`, the deduplicating `sync`, and the `Parameters` accessor of
`CloudformationTemplateBody`.

Strings are modelled as Lean `String` (a wrapper around `List Char`); the
character-level helpers mirror `posixpath.dirname`, `posixpath.basename`
and `str.strip('/')`.  Fallible operations return `Except`; the single
Python exception type `InvalidStackConfiguration` is modelled as a
structured error type whose constructors record exactly the data
interpolated into the corresponding Python message.
-/

deriving instance DecidableEq for Except

/-- Python `posixpath.basename`: everything after the last `'/'` (the whole string
when it has no slash). -/
def basenameCs (p : List Char) : List Char :=
  (p.reverse.takeWhile (fun c => c != '/')).reverse

/-- The prefix `p[:i]` where `i` is one past the last `'/'` of `p`
(`posixpath.split`'s `head`, before its trailing-slash normalisation). -/
def headPartCs (p : List Char) : List Char :=
  (p.reverse.dropWhile (fun c => c != '/')).reverse

/-- Python `str.rstrip('/')`. -/
def rstripSlashCs (p : List Char) : List Char :=
  (p.reverse.dropWhile (fun c => c == '/')).reverse

/-- Python `posixpath.dirname`: the head part, with trailing slashes removed unless
the head is empty or consists only of slashes. -/
def dirnameCs (p : List Char) : List Char :=
  if (headPartCs p).all (fun c => c == '/') then headPartCs p
  else rstripSlashCs (headPartCs p)

/-- Python `str.strip('/')`: remove leading and trailing slashes. -/
def stripSlashCs (p : List Char) : List Char :=
  rstripSlashCs (p.dropWhile (fun c => c == '/'))

/-- The method `CloudformationTemplate.build_s3_key` on character lists: the logical key
verbatim when the predictable-name flag is set, otherwise
`'/'.join([dirname(key), checksum ++ "-" ++ basename(key)]).strip('/')`. -/
def build_s3_key_cs (predictable : Bool) (key checksum : List Char) : List Char :=
  if predictable then key
  else stripSlashCs (dirnameCs key ++ '/' :: (checksum ++ '-' :: basenameCs key))

/-- A stack declaration as parsed from the manifest: the per-stack mapping
with its `name`, `template` reference and the optional fields read by the
engine (`deployable`, `tags`, `predictable_name`).  An absent optional field
is `none`, mirroring `dict.get` defaults. -/
structure StackDecl where
  name : String
  template : String
  deployable : Option Bool := none
  tags : Option (List String) := none
  predictable_name : Option Bool := none
deriving DecidableEq, Repr

/-- The test `self.template_parameters.get('predictable_name', False) is True`:
only the literal value `True` enables predictable naming. -/
def StackDecl.isPredictable (d : StackDecl) : Bool :=
  d.predictable_name == some true

/-- The method `CloudformationTemplate.build_s3_key` on `String`, reading the
predictable-name flag from the declaration. -/
def build_s3_key (d : StackDecl) (template_key template_checksum : String) : String :=
  String.mk (build_s3_key_cs d.isPredictable template_key.data template_checksum.data)

/-- The `InvalidStackConfiguration` errors raised by the engine, one
constructor per distinct message shape, carrying the data interpolated into
the Python message. -/
inductive SeedError where
  | invalidStacksDefinition
  | substackNotFound (requested : String) (available : List String)
  | templateFileNotFound (key : String)
  | templateNotFoundFor (name : String)
  | templateNotFound (ref : String)
deriving DecidableEq, Repr

/-- The raw `stacks` entry of the environment parameters: a flat list, a
mapping of group name to stack sequence (a Python `dict`, modelled as an
association list in insertion order with pairwise-distinct keys), or
anything else (absent, `None`, or a non-list non-mapping value, all of which
fail the two `isinstance` guards). -/
inductive RawStacks where
  | flat (l : List StackDecl)
  | grouped (g : List (String × List StackDecl))
  | other
deriving DecidableEq, Repr

/-- Python `dict.get` on the grouped manifest (keys are unique in a `dict`,
so first match is the match). -/
def lookupGroup (g : List (String × List StackDecl)) (k : String) : Option (List StackDecl) :=
  (g.find? (fun p => p.1 == k)).map (fun p => p.2)

/-- The method `CloudformationCollection.parse_stacks`.  Python truthiness makes an
empty list or empty mapping fall through both `isinstance` branches to the
final `Invalid stacks definition` error; in the grouped branch the
substack-name lookup is tried before the empty-filter concatenation. -/
def parse_stacks (raw : RawStacks) (substack_name : String) : Except SeedError (List StackDecl) :=
  match raw with
  | .flat l => if l.isEmpty then .error .invalidStacksDefinition else .ok l
  | .grouped g =>
      if g.isEmpty then .error .invalidStacksDefinition
      else
        match lookupGroup g substack_name with
        | some l => .ok l
        | none =>
            if substack_name == "" then
              .ok (g.foldl (fun acc p => acc ++ p.2) [])
            else .error (.substackNotFound substack_name (g.map (fun p => p.1)))
  | .other => .error .invalidStacksDefinition

/-- One resolved `CloudformationTemplate`: its logical `template_key`, the
declaration it was built from (`template_parameters`), and the local file it
was bound to (`none` for a remote `s3://` source). -/
structure CfnTemplate where
  template_key : String
  params : StackDecl
  file_path : Option String := none
deriving DecidableEq, Repr

/-- The `name` property: `template_parameters['name']`. -/
def CfnTemplate.name (t : CfnTemplate) : String := t.params.name

/-- The `template` property: `template_parameters['template']`. -/
def CfnTemplate.template (t : CfnTemplate) : String := t.params.template

/-- The `tags` property: `template_parameters['tags']` when present, else `[]`. -/
def CfnTemplate.tags (t : CfnTemplate) : List String := t.params.tags.getD []

/-- The method `CloudformationCollection.find_template_file`: first scanned pair whose
logical key matches, else `InvalidStackConfiguration`. -/
def find_template_file (template_files : List (String × String)) (template_key : String) :
    Except SeedError String :=
  match template_files.find? (fun f => f.1 == template_key) with
  | some f => .ok f.2
  | none => .error (.templateFileNotFound template_key)

/-- Binding of one stack declaration to a template source (`__init__`, first
loop body): an `s3://` reference becomes a remote source, anything else is
looked up among the scanned files. -/
def bindTemplate (template_files : List (String × String)) (xs : StackDecl) :
    Except SeedError CfnTemplate :=
  if "s3://".data.isPrefixOf xs.template.data then
    .ok { template_key := xs.template, params := xs, file_path := none }
  else
    (find_template_file template_files xs.template).map
      (fun p => { template_key := xs.template, params := xs, file_path := some p })

/-- The first loop of `__init__`: bind every declared stack in manifest
order, stopping at the first failure. -/
def buildDeclared (template_files : List (String × String)) :
    List StackDecl → Except SeedError (List CfnTemplate)
  | [] => .ok []
  | xs :: rest => do
      let t ← bindTemplate template_files xs
      let ts ← buildDeclared template_files rest
      .ok (t :: ts)

/-- The declaration synthesised for a scanned file not declared in the
manifest: `{'name': key, 'template': key}`. -/
def implicitDecl (key : String) : StackDecl :=
  { name := key, template := key }

/-- The second loop of `__init__`: append every scanned file whose logical
key is not already the `template_key` of a collected template (the check
runs against the growing list, so earlier implicit additions count). -/
def addImplicit (template_files : List (String × String)) (ts : List CfnTemplate) :
    List CfnTemplate :=
  match template_files with
  | [] => ts
  | xf :: rest =>
      if ts.any (fun xt => xt.template_key == xf.1) then addImplicit rest ts
      else addImplicit rest
        (ts ++ [{ template_key := xf.1, params := implicitDecl xf.1, file_path := some xf.2 }])

/-- The resolved collection state: the parsed stack declarations (the
source's `self.stacks`; `stacks` is a reserved token here, hence the field
name `stackDecls`) and the collected template sources. -/
structure Collection where
  stackDecls : List StackDecl
  templates : List CfnTemplate
deriving DecidableEq, Repr

/-- The constructor `CloudformationCollection.__init__` after `parse_stacks`: declared
templates first, then implicit ones. -/
def buildCollection (template_files : List (String × String)) (stackDecls : List StackDecl) :
    Except SeedError Collection :=
  (buildDeclared template_files stackDecls).map
    (fun ds => { stackDecls := stackDecls, templates := addImplicit template_files ds })

/-- Full construction from the raw manifest: `parse_stacks` then template
collection. -/
def buildFromManifest (template_files : List (String × String)) (raw : RawStacks)
    (substack_name : String) : Except SeedError Collection :=
  (parse_stacks raw substack_name).bind (buildCollection template_files)

/-- The lookup inside `list_deployable`:
`[xt for xt in self.templates if xt.name == xs.get('name')].pop()` — `pop()`
takes the LAST element of the filtered list. -/
def lookupByName (ts : List CfnTemplate) (name : String) : Option CfnTemplate :=
  (ts.filter (fun xt => xt.name == name)).getLast?

/-- The loop of `list_deployable`: skip declarations whose `deployable` is
the literal `False`, look the others up by name, raise on a miss. -/
def list_deployable_go (ts : List CfnTemplate) : List StackDecl → Except SeedError (List CfnTemplate)
  | [] => .ok []
  | xs :: rest =>
      if xs.deployable == some false then list_deployable_go ts rest
      else
        match lookupByName ts xs.name with
        | some t => (list_deployable_go ts rest).map (fun u => t :: u)
        | none => .error (.templateNotFoundFor xs.name)

/-- The method `CloudformationCollection.list_deployable`. -/
def Collection.list_deployable (c : Collection) : Except SeedError (List CfnTemplate) :=
  list_deployable_go c.templates c.stackDecls

/-- The method `CloudformationCollection.find_template`:
`[x for x in self.templates if x.template == template_name].pop()`, raising
`InvalidStackConfiguration` when nothing matches. -/
def Collection.find_template (c : Collection) (template_name : String) :
    Except SeedError CfnTemplate :=
  match (c.templates.filter (fun x => x.template == template_name)).getLast? with
  | some t => .ok t
  | none => .error (.templateNotFound template_name)

/-- The selection made by `CloudformationCollection.sync`: keep a template
exactly when its `template` reference does not occur among the references of
the templates before it (`seen` accumulates the references of the processed
prefix). -/
def dedupFirst : List CfnTemplate → List String → List CfnTemplate
  | [], _ => []
  | t :: rest, seen =>
      if t.template ∈ seen then dedupFirst rest (t.template :: seen)
      else t :: dedupFirst rest (t.template :: seen)

/-- The list of templates whose `sync()` is invoked by
`CloudformationCollection.sync`, in invocation order. -/
def Collection.sync_list (c : Collection) : List CfnTemplate :=
  dedupFirst c.templates []

/-- A parsed YAML document as handed back by the external YAML loader: a
mapping (Python `dict`, insertion-ordered with unique keys), a sequence, a
scalar, or null. -/
inductive YamlValue where
  | mapping (entries : List (String × YamlValue))
  | seqVal (items : List YamlValue)
  | scalar (s : String)
  | nullVal

/-- Python `dict.get` on a parsed mapping. -/
def yamlGet (entries : List (String × YamlValue)) (k : String) : Option YamlValue :=
  (entries.find? (fun p => p.1 == k)).map (fun p => p.2)

/-- The failure mode of attribute access on a non-`dict` Python value. -/
inductive PyAttrError where
  | attributeError
deriving DecidableEq, Repr

/-- The `parameters` property of `CloudformationTemplateBody`:
`self.body.get('Parameters', dict())`.  `yaml.load` may return any document
shape; `.get` only exists on a mapping, so any other body raises
`AttributeError`. -/
def bodyParameters : YamlValue → Except PyAttrError YamlValue
  | .mapping entries => .ok ((yamlGet entries "Parameters").getD (.mapping []))
  | _ => .error .attributeError

/-! ## Helper lemmas -/

/-- In an association list with pairwise-distinct keys, `find?` on a key
present in the list returns exactly its pair. -/
theorem find?_key_of_mem_of_nodup {β : Type} (g : List (String × β)) (k : String) (v : β)
    (hmem : (k, v) ∈ g) (hnd : (g.map Prod.fst).Nodup) :
    g.find? (fun p => p.1 == k) = some (k, v) := by
  induction g with
  | nil => cases hmem
  | cons p rest ih =>
      have hnd' : p.1 ∉ rest.map Prod.fst ∧ (rest.map Prod.fst).Nodup := by
        rw [List.map_cons, List.nodup_cons] at hnd
        exact hnd
      rcases List.mem_cons.mp hmem with h | h
      · subst h
        exact List.find?_cons_of_pos _ (by simp)
      · have hk : k ∈ rest.map Prod.fst := List.mem_map.mpr ⟨(k, v), h, rfl⟩
        have hne : ¬ ((p.1 == k) = true) := by
          intro hb
          exact hnd'.1 ((beq_iff_eq.mp hb).symm ▸ hk)
        have hstep := List.find?_cons_of_neg (p := fun q => q.1 == k) (a := p) rest hne
        rw [hstep]
        exact ih h hnd'.2

/-- Folding list append over the group values concatenates them in order. -/
theorem foldl_append_eq_flatten {β : Type} (g : List (String × List β)) (acc : List β) :
    g.foldl (fun a p => a ++ p.2) acc = acc ++ (g.map (fun p => p.2)).flatten := by
  induction g generalizing acc with
  | nil => simp
  | cons p rest ih => simp [ih, List.append_assoc]

/-! ## C10 -/

/-- C10: a present-but-empty `stacks` entry — an empty flat list or an empty
group mapping — makes `parse_stacks` fail with `InvalidStackConfiguration`
('Invalid stacks definition'), the same error raised for an absent or
non-list, non-mapping entry, for every substack filter. -/
theorem c10_empty_stacks_rejected (substack_name : String) :
    parse_stacks (.flat []) substack_name = .error .invalidStacksDefinition ∧
    parse_stacks (.grouped []) substack_name = .error .invalidStacksDefinition ∧
    parse_stacks .other substack_name = .error .invalidStacksDefinition :=
  ⟨rfl, rfl, rfl⟩

/-! ## C8 -/

/-- C8 counterexample: the empty flat list is a flat `stacks` entry, yet
`parse_stacks` does not return it verbatim — it fails with the invalid
stacks definition error. -/
theorem c8_counterexample :
    parse_stacks (.flat []) "" ≠ .ok [] ∧
    parse_stacks (.flat []) "" = .error .invalidStacksDefinition := by
  decide

/-- C8 (amended): for every NON-EMPTY flat stacks list, `parse_stacks`
returns the list verbatim, for every value of the substack filter. -/
theorem c8_flat_returned_verbatim (l : List StackDecl) (substack_name : String)
    (h : l ≠ []) :
    parse_stacks (.flat l) substack_name = .ok l := by
  simp only [parse_stacks, List.isEmpty_eq_true]
  rw [if_neg h]

/-- C8 witness: a concrete non-empty flat manifest is returned verbatim even
under a non-trivial filter. -/
theorem c8_flat_returned_verbatim_witness :
    parse_stacks (.flat [implicitDecl "service1.cf.yaml"]) "some-filter" =
      .ok [implicitDecl "service1.cf.yaml"] :=
  c8_flat_returned_verbatim _ _ (by decide)

/-! ## C2 -/

/-- A concrete grouped manifest with a group literally named by the empty
string, used to separate the group-lookup branch from the concatenation
branch of `parse_stacks`. -/
def c2ExampleGroups : List (String × List StackDecl) :=
  [("", [{ name := "s1", template := "t1.cf.yaml" }]),
   ("g2", [{ name := "s2", template := "t2.cf.yaml" }])]

/-- C2 counterexample: with an empty substack filter, the claim requires the
concatenation of every group's sequence; but when a group is itself named by
the empty string, `parse_stacks` finds it via `dict.get` first and returns
only that group. -/
theorem c2_counterexample :
    parse_stacks (.grouped c2ExampleGroups) "" =
      .ok [{ name := "s1", template := "t1.cf.yaml" }] ∧
    parse_stacks (.grouped c2ExampleGroups) "" ≠
      .ok ((c2ExampleGroups.map (fun p => p.2)).flatten) := by
  decide

/-- C2 (amended): for a non-empty grouped manifest with pairwise-distinct
group names: a filter naming an existing group returns exactly that group's
sequence (this branch has priority, and also applies to a group named by the
empty string); an empty filter that does NOT name a group returns the
concatenation of every group's sequence in declared order; a non-empty
filter naming no group fails with `InvalidStackConfiguration` identifying
the requested filter and the available group names. -/
theorem c2_parse_stacks_grouped (g : List (String × List StackDecl))
    (substack_name : String) (l : List StackDecl)
    (hne : g ≠ []) (hnd : (g.map Prod.fst).Nodup) :
    ((substack_name, l) ∈ g → parse_stacks (.grouped g) substack_name = .ok l) ∧
    (substack_name = "" → "" ∉ g.map Prod.fst →
      parse_stacks (.grouped g) substack_name =
        .ok ((g.map (fun p => p.2)).flatten)) ∧
    (substack_name ≠ "" → substack_name ∉ g.map Prod.fst →
      parse_stacks (.grouped g) substack_name =
        .error (.substackNotFound substack_name (g.map (fun p => p.1)))) := by
  have hifne : ¬ (g.isEmpty = true) := by simpa [List.isEmpty_eq_true] using hne
  refine ⟨?_, ?_, ?_⟩
  · intro hmem
    have hfind : lookupGroup g substack_name = some l := by
      unfold lookupGroup
      rw [find?_key_of_mem_of_nodup g substack_name l hmem hnd]
      rfl
    simp only [parse_stacks, if_neg hifne]
    rw [hfind]
  · intro hsub hnotin
    subst hsub
    have hfind : lookupGroup g "" = none := by
      unfold lookupGroup
      rw [List.find?_eq_none.mpr]
      · rfl
      · intro x hx hb
        exact hnotin (List.mem_map.mpr ⟨x, hx, beq_iff_eq.mp hb⟩)
    simp only [parse_stacks, if_neg hifne]
    rw [hfind]
    simp [foldl_append_eq_flatten]
  · intro hsub hnotin
    have hfind : lookupGroup g substack_name = none := by
      unfold lookupGroup
      rw [List.find?_eq_none.mpr]
      · rfl
      · intro x hx hb
        exact hnotin (List.mem_map.mpr ⟨x, hx, beq_iff_eq.mp hb⟩)
    have hbe : ¬ ((substack_name == "") = true) := by
      simpa using hsub
    simp only [parse_stacks, if_neg hifne]
    rw [hfind, if_neg hbe]

/-- C2 witness: on a concrete two-group manifest the three amended clauses
produce, respectively, the named group, the full concatenation, and the
error naming the missing filter and the available groups. -/
theorem c2_parse_stacks_grouped_witness :
    parse_stacks
      (.grouped [("databases", [{ name := "database1", template := "d1.cf.yaml" }]),
                 ("services", [{ name := "service1", template := "s1.cf.yaml" }])])
      "services" = .ok [{ name := "service1", template := "s1.cf.yaml" }] ∧
    parse_stacks
      (.grouped [("databases", [{ name := "database1", template := "d1.cf.yaml" }]),
                 ("services", [{ name := "service1", template := "s1.cf.yaml" }])])
      "" = .ok [{ name := "database1", template := "d1.cf.yaml" },
                { name := "service1", template := "s1.cf.yaml" }] ∧
    parse_stacks
      (.grouped [("databases", [{ name := "database1", template := "d1.cf.yaml" }]),
                 ("services", [{ name := "service1", template := "s1.cf.yaml" }])])
      "missing" = .error (.substackNotFound "missing" ["databases", "services"]) := by
  refine ⟨?_, ?_, ?_⟩
  · exact (c2_parse_stacks_grouped _ "services" _ (by decide) (by decide)).1 (by decide)
  · exact (c2_parse_stacks_grouped _ "" [] (by decide) (by decide)).2.1 rfl (by decide)
  · exact (c2_parse_stacks_grouped _ "missing" [] (by decide) (by decide)).2.2
      (by decide) (by decide)

/-! ## C9 -/

/-- C9 counterexample: the text `"hello"` is accepted by
`CloudformationTemplateBody` construction (it is valid YAML, loading to a
scalar), the parsed body has no `Parameters` section, and yet the
`parameters` accessor fails (`.get` on a non-mapping raises
`AttributeError`) instead of returning the empty mapping. -/
theorem c9_counterexample :
    bodyParameters (.scalar "hello") = .error .attributeError ∧
    bodyParameters (.scalar "hello") ≠ .ok (.mapping []) :=
  ⟨rfl, fun h => Except.noConfusion h⟩

/-- C9 (amended): when the parsed body IS a mapping with no `Parameters`
key, the `parameters` accessor returns the empty mapping; the accessor can
fail on accepted input whose parsed body is not a mapping. -/
theorem c9_parameters_default (entries : List (String × YamlValue))
    (h : yamlGet entries "Parameters" = none) :
    bodyParameters (.mapping entries) = .ok (.mapping []) := by
  simp [bodyParameters, h]

/-- C9 witness: a mapping body with only a `Resources` section yields the
empty parameters mapping. -/
theorem c9_parameters_default_witness :
    bodyParameters (.mapping [("Resources", .nullVal)]) = .ok (.mapping []) :=
  c9_parameters_default _ rfl

/-! ## C3 -/

/-- Counting occurrences of a template reference in the sync selection:
zero when the reference was already seen, otherwise one exactly when it
occurs in the remaining templates. -/
theorem dedupFirst_countP (ts : List CfnTemplate) (seen : List String) (ref : String) :
    (dedupFirst ts seen).countP (fun t => t.template == ref) =
      if ref ∈ seen then 0
      else if ref ∈ ts.map CfnTemplate.template then 1 else 0 := by
  induction ts generalizing seen with
  | nil => simp [dedupFirst]
  | cons t rest ih =>
      simp only [dedupFirst, List.map_cons, List.mem_cons]
      by_cases hseen : t.template ∈ seen
      · rw [if_pos hseen, ih]
        by_cases hr : ref ∈ seen
        · simp [hr]
        · have hrt : ¬ ref = t.template := fun he => hr (he ▸ hseen)
          simp [hr, hrt]
      · rw [if_neg hseen, List.countP_cons, ih]
        by_cases hr : ref ∈ seen
        · have hrt : ¬ ref = t.template := fun he => hseen (he ▸ hr)
          have hb : (t.template == ref) = false := by
            simpa using Ne.symm hrt
          simp [hr, hrt, hb]
        · by_cases hrt : ref = t.template
          · have hb : (t.template == ref) = true := by simpa using hrt.symm
            simp [hr, hrt, hb, hseen]
          · have hb : (t.template == ref) = false := by
              simpa using Ne.symm hrt
            simp [hr, hrt, hb]

/-- The element the sync selection keeps for a not-yet-seen reference is the
first occurrence of that reference in the template list. -/
theorem dedupFirst_find? (ts : List CfnTemplate) (seen : List String) (ref : String)
    (h : ref ∉ seen) :
    (dedupFirst ts seen).find? (fun t => t.template == ref) =
      ts.find? (fun t => t.template == ref) := by
  induction ts generalizing seen with
  | nil => simp [dedupFirst]
  | cons t rest ih =>
      simp only [dedupFirst]
      by_cases hseen : t.template ∈ seen
      · rw [if_pos hseen]
        have hrt : ref ≠ t.template := fun he => h (he ▸ hseen)
        have hnotin : ref ∉ t.template :: seen := by
          simp [List.mem_cons, hrt, h]
        have hb : (t.template == ref) = false := by
          simpa using Ne.symm hrt
        rw [ih _ hnotin, List.find?_cons, hb]
      · rw [if_neg hseen]
        rw [List.find?_cons, List.find?_cons]
        by_cases hb : (t.template == ref) = true
        · rw [hb]
        · rw [Bool.eq_false_iff.mpr hb]
          have hrt : ref ≠ t.template := by
            intro he
            exact hb (by simpa using he.symm)
          have hnotin : ref ∉ t.template :: seen := by
            simp [List.mem_cons, hrt, h]
          exact ih _ hnotin

/-- The sync selection is a sublist of the template list. -/
theorem dedupFirst_sublist (ts : List CfnTemplate) (seen : List String) :
    (dedupFirst ts seen).Sublist ts := by
  induction ts generalizing seen with
  | nil => simp [dedupFirst]
  | cons t rest ih =>
      simp only [dedupFirst]
      by_cases hseen : t.template ∈ seen
      · rw [if_pos hseen]
        exact (ih _).cons t
      · rw [if_neg hseen]
        exact (ih _).cons₂ t

/-- C3: `CloudformationCollection.sync` synchronizes exactly one template
source per distinct template reference occurring in the collection —
occurring references exactly once, absent references never — that one
source being the FIRST occurrence of the reference in collection order; the
selection is a sublist of the collection (so sources whose reference
occurred earlier are never synchronized, and order is preserved). -/
theorem c3_sync_dedup_first_occurrence (c : Collection) (ref : String) :
    (c.sync_list.countP (fun t => t.template == ref) =
      if ref ∈ c.templates.map CfnTemplate.template then 1 else 0) ∧
    c.sync_list.find? (fun t => t.template == ref) =
      c.templates.find? (fun t => t.template == ref) ∧
    c.sync_list.Sublist c.templates := by
  refine ⟨?_, ?_, ?_⟩
  · simpa using dedupFirst_countP c.templates [] ref
  · simpa using dedupFirst_find? c.templates [] ref (by simp)
  · exact dedupFirst_sublist c.templates []

/-! ## C4 -/

/-- When every non-skipped declaration has a matching template source, the
`list_deployable` loop returns, in declaration order, the lookup result of
every declaration whose deployable flag is not the literal `False`. -/
theorem list_deployable_go_ok (ts : List CfnTemplate) (l : List StackDecl)
    (h : ∀ xs ∈ l.filter (fun xs => !(xs.deployable == some false)),
          (lookupByName ts xs.name).isSome) :
    list_deployable_go ts l =
      .ok ((l.filter (fun xs => !(xs.deployable == some false))).filterMap
            (fun xs => lookupByName ts xs.name)) := by
  induction l with
  | nil => simp [list_deployable_go]
  | cons xs rest ih =>
      simp only [list_deployable_go]
      by_cases hskip : (xs.deployable == some false) = true
      · rw [if_pos hskip]
        rw [List.filter_cons_of_neg (by simpa using hskip)] at h ⊢
        exact ih h
      · rw [if_neg hskip]
        rw [List.filter_cons_of_pos (by simpa using hskip)] at h ⊢
        have hx : (lookupByName ts xs.name).isSome :=
          h xs (List.mem_cons_self xs _)
        match hfound : lookupByName ts xs.name with
        | some t =>
            rw [ih (fun ys hys => h ys (List.mem_cons_of_mem xs hys))]
            simp [List.filterMap_cons, hfound, Except.map]
        | none => rw [hfound] at hx; cases hx

/-- When some non-skipped declaration has no matching template source, the
`list_deployable` loop fails with the error naming the first such
declaration. -/
theorem list_deployable_go_err (ts : List CfnTemplate) (l : List StackDecl)
    (xs : StackDecl)
    (h : (l.filter (fun xs => !(xs.deployable == some false))).find?
          (fun xs => (lookupByName ts xs.name).isNone) = some xs) :
    list_deployable_go ts l = .error (.templateNotFoundFor xs.name) := by
  induction l with
  | nil => simp at h
  | cons ys rest ih =>
      simp only [list_deployable_go]
      by_cases hskip : (ys.deployable == some false) = true
      · rw [if_pos hskip]
        rw [List.filter_cons_of_neg (by simpa using hskip)] at h
        exact ih h
      · rw [if_neg hskip]
        rw [List.filter_cons_of_pos (by simpa using hskip)] at h
        rw [List.find?_cons] at h
        match hfound : lookupByName ts ys.name with
        | some t =>
            rw [hfound] at h
            simp only [Option.isNone_some] at h
            rw [ih h]
            rfl
        | none =>
            rw [hfound] at h
            simp only [Option.isNone_none] at h
            cases h
            rfl

/-- C4: `list_deployable` iterates the resolved declarations in manifest
order, skips exactly those whose deployable flag is the literal `False`,
returns the looked-up template source for every other declaration, and
fails with `InvalidStackConfiguration` naming the (first) non-skipped
declaration for which no template source matches. -/
theorem c4_list_deployable (c : Collection) :
    ((∀ xs ∈ c.stackDecls.filter (fun xs => !(xs.deployable == some false)),
        (lookupByName c.templates xs.name).isSome) →
      c.list_deployable =
        .ok ((c.stackDecls.filter (fun xs => !(xs.deployable == some false))).filterMap
              (fun xs => lookupByName c.templates xs.name))) ∧
    (∀ xs, (c.stackDecls.filter (fun xs => !(xs.deployable == some false))).find?
        (fun xs => (lookupByName c.templates xs.name).isNone) = some xs →
      c.list_deployable = .error (.templateNotFoundFor xs.name)) :=
  ⟨fun h => list_deployable_go_ok c.templates c.stackDecls h,
   fun xs h => list_deployable_go_err c.templates c.stackDecls xs h⟩

/-- A concrete collection exercising both `list_deployable` outcomes: one
deployable declaration, one skipped via `deployable: false`, one more
deployable one. -/
def c4ExampleCollection : Collection :=
  { stackDecls :=
      [{ name := "service1", template := "service1.cf.yaml" },
       { name := "skipped", template := "service1.cf.yaml", deployable := some false },
       { name := "service2", template := "service2.cf.yaml", deployable := some true }],
    templates :=
      [{ template_key := "service1.cf.yaml",
         params := { name := "service1", template := "service1.cf.yaml" },
         file_path := some "/t/service1.cf.yaml" },
       { template_key := "service2.cf.yaml",
         params := { name := "service2", template := "service2.cf.yaml", deployable := some true },
         file_path := some "/t/service2.cf.yaml" }] }

/-- A concrete collection whose only declaration has no matching template
source. -/
def c4ErrCollection : Collection :=
  { stackDecls := [{ name := "orphan", template := "missing.cf.yaml" }],
    templates := [] }

/-- C4 witness: on the example collections, `list_deployable` returns the
two deployable sources in manifest order (the skipped one omitted), and
fails naming the orphan declaration. -/
theorem c4_list_deployable_witness :
    c4ExampleCollection.list_deployable =
      .ok [{ template_key := "service1.cf.yaml",
             params := { name := "service1", template := "service1.cf.yaml" },
             file_path := some "/t/service1.cf.yaml" },
           { template_key := "service2.cf.yaml",
             params := { name := "service2", template := "service2.cf.yaml",
                         deployable := some true },
             file_path := some "/t/service2.cf.yaml" }] ∧
    c4ErrCollection.list_deployable = .error (.templateNotFoundFor "orphan") := by
  constructor
  · exact ((c4_list_deployable c4ExampleCollection).1 (by decide)).trans (by decide)
  · exact (c4_list_deployable c4ErrCollection).2
      { name := "orphan", template := "missing.cf.yaml" } (by decide)

/-! ## C6 -/

/-- The head of a filtered list is its first element satisfying the
predicate. -/
theorem head?_filter_eq_find? {α : Type} (p : α → Bool) (m : List α) :
    (m.filter p).head? = m.find? p := by
  induction m with
  | nil => rfl
  | cons a m ih =>
      by_cases h : p a = true
      · simp [List.filter_cons, List.find?_cons, h]
      · simp [List.filter_cons, List.find?_cons, Bool.eq_false_iff.mpr h, ih]

/-- Python's `[x for x in l if p(x)].pop()` — last element of the filtered
list — is the first match in the REVERSED list. -/
theorem filter_getLast?_eq_reverse_find? {α : Type} (p : α → Bool) (l : List α) :
    (l.filter p).getLast? = l.reverse.find? p := by
  rw [List.getLast?_eq_head?_reverse, ← List.filter_reverse]
  exact head?_filter_eq_find? p l.reverse

/-- C6 (amended): when several template sources match a lookup, both
`list_deployable`'s by-name lookup and `find_template`'s by-reference lookup
return the LAST matching source in collection order (`list.pop()` takes the
last element), not the first; duplicates before the last are invisible to
lookup but are not rejected at parse time. -/
theorem c6_lookup_last_match (c : Collection) (template_name name : String) :
    c.find_template template_name =
      (match c.templates.reverse.find? (fun x => x.template == template_name) with
       | some t => .ok t
       | none => .error (.templateNotFound template_name)) ∧
    lookupByName c.templates name =
      c.templates.reverse.find? (fun xt => xt.name == name) := by
  constructor
  · unfold Collection.find_template
    rw [filter_getLast?_eq_reverse_find?]
  · unfold lookupByName
    rw [filter_getLast?_eq_reverse_find?]

/-- First declaration of the duplicate-name pair. -/
def c6Decl1 : StackDecl := { name := "a", template := "t1.cf.yaml" }

/-- Second declaration of the duplicate-name pair, distinguishable by its
tags. -/
def c6Decl2 : StackDecl := { name := "a", template := "t1.cf.yaml", tags := some ["second"] }

/-- The source bound to the first declaration. -/
def c6T1 : CfnTemplate :=
  { template_key := "t1.cf.yaml", params := c6Decl1, file_path := some "/path/t1.cf.yaml" }

/-- The source bound to the second declaration. -/
def c6T2 : CfnTemplate :=
  { template_key := "t1.cf.yaml", params := c6Decl2, file_path := some "/path/t1.cf.yaml" }

/-- The collection built from the duplicate-name manifest. -/
def c6Collection : Collection := { stackDecls := [c6Decl1, c6Decl2], templates := [c6T1, c6T2] }

/-- C6 counterexample: two declarations with the same stack name and the
same template reference are accepted at parse time, yet both lookups return
the SECOND matching source — not the first, as the claim states (the first
match is `c6T1`, a different source). -/
theorem c6_counterexample :
    buildFromManifest [("t1.cf.yaml", "/path/t1.cf.yaml")] (.flat [c6Decl1, c6Decl2]) "" =
      .ok c6Collection ∧
    lookupByName c6Collection.templates "a" = some c6T2 ∧
    c6Collection.find_template "t1.cf.yaml" = .ok c6T2 ∧
    c6T2 ≠ c6T1 ∧
    c6Collection.templates.find? (fun xt => xt.name == "a") = some c6T1 ∧
    c6Collection.templates.find? (fun x => x.template == "t1.cf.yaml") = some c6T1 := by
  decide

/-! ## C5 and C7: structure of the built collection -/

/-- The implicit template sources produced by the second `__init__` loop:
one per scanned file whose logical key is not in `seen` (the keys already
collected), processed in scan order, `seen` growing as keys are appended. -/
def implicitList : List (String × String) → List String → List CfnTemplate
  | [], _ => []
  | f :: rest, seen =>
      if f.1 ∈ seen then implicitList rest seen
      else { template_key := f.1, params := implicitDecl f.1, file_path := some f.2 }
        :: implicitList rest (seen ++ [f.1])

/-- The second `__init__` loop appends exactly the implicit sources for the
scanned files whose keys are not among the already-collected template keys. -/
theorem addImplicit_eq (template_files : List (String × String)) (ts : List CfnTemplate) :
    addImplicit template_files ts =
      ts ++ implicitList template_files (ts.map CfnTemplate.template_key) := by
  induction template_files generalizing ts with
  | nil => simp [addImplicit, implicitList]
  | cons f rest ih =>
      simp only [addImplicit, implicitList]
      by_cases h : ts.any (fun xt => xt.template_key == f.1) = true
      · have hmem : f.1 ∈ ts.map CfnTemplate.template_key := by
          rcases List.any_eq_true.mp h with ⟨x, hx, hb⟩
          exact List.mem_map.mpr ⟨x, hx, beq_iff_eq.mp hb⟩
        rw [if_pos h, if_pos hmem, ih]
      · have hmem : f.1 ∉ ts.map CfnTemplate.template_key := by
          intro hc
          rcases List.mem_map.mp hc with ⟨x, hx, hkey⟩
          exact h (List.any_eq_true.mpr ⟨x, hx, beq_iff_eq.mpr hkey⟩)
        rw [if_neg h, if_neg hmem, ih]
        simp [List.map_append, List.append_assoc]

/-- The implicit sources have pairwise-distinct keys, none of which was
already collected. -/
theorem implicitList_keys (template_files : List (String × String)) (seen : List String) :
    ((implicitList template_files seen).map CfnTemplate.template_key).Nodup ∧
    (∀ k ∈ (implicitList template_files seen).map CfnTemplate.template_key, k ∉ seen) := by
  induction template_files generalizing seen with
  | nil => simp [implicitList]
  | cons f rest ih =>
      simp only [implicitList]
      by_cases h : f.1 ∈ seen
      · rw [if_pos h]
        exact ih seen
      · rw [if_neg h]
        obtain ⟨ihnd, ihni⟩ := ih (seen ++ [f.1])
        constructor
        · rw [List.map_cons, List.nodup_cons]
          refine ⟨?_, ihnd⟩
          intro hc
          have := ihni _ hc
          simp at this
        · intro k hk
          rw [List.map_cons, List.mem_cons] at hk
          rcases hk with hk | hk
          · exact hk ▸ h
          · intro hks
            exact ihni k hk (List.mem_append.mpr (Or.inl hks))

/-- Every implicit source uses its own logical key as the whole declaration
(`{'name': key, 'template': key}`) and is bound to a local file. -/
theorem implicitList_mem_props (template_files : List (String × String)) (seen : List String)
    (t : CfnTemplate) (ht : t ∈ implicitList template_files seen) :
    t.params = implicitDecl t.template_key ∧ t.file_path.isSome = true := by
  induction template_files generalizing seen with
  | nil => simp [implicitList] at ht
  | cons f rest ih =>
      simp only [implicitList] at ht
      by_cases h : f.1 ∈ seen
      · rw [if_pos h] at ht
        exact ih seen ht
      · rw [if_neg h] at ht
        rcases List.mem_cons.mp ht with h1 | h1
        · subst h1
          exact ⟨rfl, rfl⟩
        · exact ih _ h1

/-- The implicit sources appear in scan order: their keys form a sublist of
the scanned keys. -/
theorem implicitList_keys_sublist (template_files : List (String × String)) (seen : List String) :
    ((implicitList template_files seen).map CfnTemplate.template_key).Sublist
      (template_files.map Prod.fst) := by
  induction template_files generalizing seen with
  | nil => simp [implicitList]
  | cons f rest ih =>
      simp only [implicitList, List.map_cons]
      by_cases h : f.1 ∈ seen
      · rw [if_pos h]
        exact (ih seen).cons f.1
      · rw [if_neg h, List.map_cons]
        exact (ih _).cons₂ f.1

/-- Every scanned file's key ends up either already collected or among the
implicit sources. -/
theorem implicitList_covers (template_files : List (String × String)) (seen : List String) :
    ∀ f ∈ template_files,
      f.1 ∈ seen ∨ f.1 ∈ (implicitList template_files seen).map CfnTemplate.template_key := by
  induction template_files generalizing seen with
  | nil => intro f hf; cases hf
  | cons g rest ih =>
      intro f hf
      simp only [implicitList]
      by_cases h : g.1 ∈ seen
      · rw [if_pos h]
        rcases List.mem_cons.mp hf with h1 | h1
        · exact Or.inl (h1 ▸ h)
        · exact ih seen f h1
      · rw [if_neg h]
        rcases List.mem_cons.mp hf with h1 | h1
        · subst h1
          exact Or.inr (by simp)
        · rcases ih (seen ++ [g.1]) f h1 with h2 | h2
          · rcases List.mem_append.mp h2 with h3 | h3
            · exact Or.inl h3
            · have hfg : f.1 = g.1 := by simpa using h3
              exact Or.inr (by simp [hfg])
          · exact Or.inr (by simp [h2])

/-- A successful binding records the declaration's template reference as the
logical key and keeps the declaration as the source's parameters. -/
theorem bindTemplate_key (template_files : List (String × String)) (xs : StackDecl)
    (t : CfnTemplate) (h : bindTemplate template_files xs = .ok t) :
    t.template_key = xs.template ∧ t.params = xs := by
  unfold bindTemplate at h
  by_cases hp : ("s3://".data.isPrefixOf xs.template.data) = true
  · rw [if_pos hp] at h
    cases h
    exact ⟨rfl, rfl⟩
  · rw [if_neg hp] at h
    unfold find_template_file at h
    cases hf : template_files.find? (fun f => f.1 == xs.template) with
    | some f =>
        rw [hf] at h
        cases h
        exact ⟨rfl, rfl⟩
    | none =>
        rw [hf] at h
        cases h

/-- The declared sources carry exactly the declarations' template references
as keys, one source per declaration in manifest order. -/
theorem buildDeclared_ok (template_files : List (String × String)) (l : List StackDecl)
    (ds : List CfnTemplate) (h : buildDeclared template_files l = .ok ds) :
    ds.map CfnTemplate.template_key = l.map StackDecl.template ∧
    ds.map CfnTemplate.params = l := by
  induction l generalizing ds with
  | nil =>
      cases h
      exact ⟨rfl, rfl⟩
  | cons xs rest ih =>
      simp only [buildDeclared, bind, Except.bind] at h
      cases hbt : bindTemplate template_files xs with
      | error e =>
          rw [hbt] at h
          cases h
      | ok t =>
          rw [hbt] at h
          cases hbd : buildDeclared template_files rest with
          | error e =>
              rw [hbd] at h
              cases h
          | ok ts' =>
              rw [hbd] at h
              cases h
              obtain ⟨hk, hp⟩ := bindTemplate_key template_files xs t hbt
              obtain ⟨ihk, ihp⟩ := ih ts' hbd
              simp [hk, hp, ihk, ihp, CfnTemplate.template]

/-- Every source returned by the `list_deployable` loop is an element of the
template list whose name matches some iterated declaration. -/
theorem list_deployable_go_mem (ts : List CfnTemplate) (l : List StackDecl)
    (u : List CfnTemplate) (h : list_deployable_go ts l = .ok u) :
    ∀ t ∈ u, ∃ xs ∈ l, t ∈ ts ∧ t.name = xs.name := by
  induction l generalizing u with
  | nil =>
      cases h
      intro t ht
      cases ht
  | cons xs rest ih =>
      simp only [list_deployable_go] at h
      by_cases hskip : (xs.deployable == some false) = true
      · rw [if_pos hskip] at h
        intro t ht
        rcases ih u h t ht with ⟨ys, hys, hmem, hname⟩
        exact ⟨ys, List.mem_cons_of_mem xs hys, hmem, hname⟩
      · rw [if_neg hskip] at h
        cases hlook : lookupByName ts xs.name with
        | none =>
            rw [hlook] at h
            cases h
        | some t0 =>
            rw [hlook] at h
            cases hrest : list_deployable_go ts rest with
            | error e =>
                rw [hrest] at h
                cases h
            | ok u' =>
                rw [hrest] at h
                cases h
                have ht0 : t0 ∈ ts ∧ t0.name = xs.name := by
                  unfold lookupByName at hlook
                  rw [filter_getLast?_eq_reverse_find?] at hlook
                  have hmem := List.mem_of_find?_eq_some hlook
                  have hpred := List.find?_some hlook
                  exact ⟨List.mem_reverse.mp hmem, beq_iff_eq.mp hpred⟩
                intro t ht
                rcases List.mem_cons.mp ht with h1 | h1
                · exact ⟨xs, List.mem_cons_self xs rest, h1 ▸ ht0.1, h1 ▸ ht0.2⟩
                · rcases ih u' hrest t h1 with ⟨ys, hys, hmem, hname⟩
                  exact ⟨ys, List.mem_cons_of_mem xs hys, hmem, hname⟩

/-- C5 counterexample: two stack declarations referencing the same template
key build successfully into a collection whose template list carries that
logical key TWICE — refuting 'no two TemplateSources share the same logical
key' and 'exactly one TemplateSource per distinct logical key ... in
particular, also when two stack declarations reference the same template
key'. -/
theorem c5_counterexample :
    (buildCollection [("a.cf.yaml", "/t/a.cf.yaml")]
        [{ name := "x", template := "a.cf.yaml" },
         { name := "y", template := "a.cf.yaml" }]).map
      (fun c => c.templates.map CfnTemplate.template_key) =
      .ok ["a.cf.yaml", "a.cf.yaml"] ∧
    ¬ (["a.cf.yaml", "a.cf.yaml"] : List String).Nodup := by
  constructor
  · decide
  · decide

/-- C5 (amended): PROVIDED the declared template references are pairwise
distinct, the built collection has pairwise-distinct logical template keys,
one source covering each declared reference and each scanned key (without
that proviso, each declaration still contributes its own source, so a
repeated reference is duplicated). -/
theorem c5_unique_keys (template_files : List (String × String)) (l : List StackDecl)
    (c : Collection) (hnd : (l.map StackDecl.template).Nodup)
    (hb : buildCollection template_files l = .ok c) :
    (c.templates.map CfnTemplate.template_key).Nodup ∧
    (∀ xs ∈ l, xs.template ∈ c.templates.map CfnTemplate.template_key) ∧
    (∀ xf ∈ template_files, xf.1 ∈ c.templates.map CfnTemplate.template_key) := by
  cases hd : buildDeclared template_files l with
  | error e =>
      unfold buildCollection at hb
      rw [hd] at hb
      cases hb
  | ok ds =>
      unfold buildCollection at hb
      rw [hd] at hb
      cases hb
      obtain ⟨hkeys, hparams⟩ := buildDeclared_ok template_files l ds hd
      have hdecomp := addImplicit_eq template_files ds
      dsimp only
      rw [hdecomp, List.map_append]
      obtain ⟨hinodup, hinotin⟩ := implicitList_keys template_files (ds.map CfnTemplate.template_key)
      refine ⟨?_, ?_, ?_⟩
      · rw [List.nodup_append]
        refine ⟨hkeys ▸ hnd, hinodup, ?_⟩
        intro k hk hki
        exact hinotin k hki hk
      · intro xs hxs
        apply List.mem_append.mpr
        exact Or.inl (hkeys ▸ List.mem_map.mpr ⟨xs, hxs, rfl⟩)
      · intro xf hxf
        apply List.mem_append.mpr
        rcases implicitList_covers template_files (ds.map CfnTemplate.template_key) xf hxf with
          h | h
        · exact Or.inl h
        · exact Or.inr h

/-- The concrete collection produced from one declared stack and one extra
scanned file. -/
def c5wCollection : Collection :=
  { stackDecls := [{ name := "x", template := "a.cf.yaml" }],
    templates :=
      [{ template_key := "a.cf.yaml",
         params := { name := "x", template := "a.cf.yaml" },
         file_path := some "/t/a.cf.yaml" },
       { template_key := "b.cf.yaml", params := implicitDecl "b.cf.yaml",
         file_path := some "/t/b.cf.yaml" }] }

/-- C5 witness: the concrete two-file build yields pairwise-distinct logical
keys covering the declaration and both scanned files. -/
theorem c5_unique_keys_witness :
    (c5wCollection.templates.map CfnTemplate.template_key).Nodup ∧
    "a.cf.yaml" ∈ c5wCollection.templates.map CfnTemplate.template_key ∧
    "b.cf.yaml" ∈ c5wCollection.templates.map CfnTemplate.template_key := by
  have h := c5_unique_keys [("a.cf.yaml", "/t/a.cf.yaml"), ("b.cf.yaml", "/t/b.cf.yaml")]
    [{ name := "x", template := "a.cf.yaml" }] c5wCollection (by decide) (by decide)
  exact ⟨h.1, h.2.1 { name := "x", template := "a.cf.yaml" } (by decide),
    h.2.2 ("b.cf.yaml", "/t/b.cf.yaml") (by decide)⟩

/-- C7 (amended): the built collection is the declared sources followed by
the implicitly-declared ones — one per scanned file whose key is not a
declared template reference, in scan order, each using its own logical key
as both name and template reference, with empty tags, default deployable
flag and a local file binding.  Such implicit sources are absent from
`list_deployable()` PROVIDED no declaration's stack name coincides with an
implicit source's logical key (the original claim's 'never returned' fails
without that proviso, because the by-name lookup takes the last match). -/
theorem c7_implicit_sources (template_files : List (String × String)) (l : List StackDecl)
    (ds : List CfnTemplate) (c : Collection)
    (hd : buildDeclared template_files l = .ok ds)
    (hb : buildCollection template_files l = .ok c) :
    c.stackDecls = l ∧
    c.templates = ds ++ implicitList template_files (l.map StackDecl.template) ∧
    (∀ t ∈ implicitList template_files (l.map StackDecl.template),
      t.name = t.template_key ∧ t.template = t.template_key ∧ t.tags = [] ∧
      t.params.deployable = none ∧ t.file_path.isSome = true) ∧
    ((implicitList template_files (l.map StackDecl.template)).map
        CfnTemplate.template_key).Sublist (template_files.map Prod.fst) ∧
    ((∀ xs ∈ l, xs.name ∉ (implicitList template_files (l.map StackDecl.template)).map
        CfnTemplate.template_key) →
      ∀ u t, c.list_deployable = .ok u → t ∈ u → t ∈ ds) := by
  unfold buildCollection at hb
  rw [hd] at hb
  cases hb
  obtain ⟨hkeys, hparams⟩ := buildDeclared_ok template_files l ds hd
  have hdecomp : addImplicit template_files ds =
      ds ++ implicitList template_files (l.map StackDecl.template) := by
    rw [addImplicit_eq, hkeys]
  refine ⟨rfl, hdecomp, ?_, implicitList_keys_sublist _ _, ?_⟩
  · intro t ht
    obtain ⟨hpar, hfp⟩ := implicitList_mem_props _ _ t ht
    refine ⟨?_, ?_, ?_, ?_, hfp⟩
    · rw [CfnTemplate.name, hpar]
      rfl
    · rw [CfnTemplate.template, hpar]
      rfl
    · rw [CfnTemplate.tags, hpar]
      rfl
    · rw [hpar]
      rfl
  · intro hnames u t hld ht
    have hmem := list_deployable_go_mem _ _ u hld t ht
    rcases hmem with ⟨xs, hxs, htts, hname⟩
    dsimp only at htts
    rw [hdecomp] at htts
    rcases List.mem_append.mp htts with h1 | h1
    · exact h1
    · exfalso
      obtain ⟨hpar, _⟩ := implicitList_mem_props _ _ t h1
      have hkeyeq : t.name = t.template_key := by
        rw [CfnTemplate.name, hpar]
        rfl
      have hmemmap : t.template_key ∈
          (implicitList template_files (l.map StackDecl.template)).map
            CfnTemplate.template_key :=
        List.mem_map.mpr ⟨t, h1, rfl⟩
      have hxsname : xs.name = t.template_key := by
        rw [← hname, hkeyeq]
      exact hnames xs hxs (hxsname ▸ hmemmap)

/-- Scanned files for the C7 counterexample: the declared template plus an
extra undeclared file. -/
def c7cFiles : List (String × String) :=
  [("s.cf.yaml", "/t/s.cf.yaml"), ("extra.cf.yaml", "/t/extra.cf.yaml")]

/-- A declaration whose stack NAME happens to equal the undeclared scanned
file's logical key. -/
def c7cDecl : StackDecl := { name := "extra.cf.yaml", template := "s.cf.yaml" }

/-- The implicit source created for the undeclared scanned file. -/
def c7cImplicit : CfnTemplate :=
  { template_key := "extra.cf.yaml", params := implicitDecl "extra.cf.yaml",
    file_path := some "/t/extra.cf.yaml" }

/-- The collection built from that manifest. -/
def c7cCollection : Collection :=
  { stackDecls := [c7cDecl],
    templates :=
      [{ template_key := "s.cf.yaml", params := c7cDecl, file_path := some "/t/s.cf.yaml" },
       c7cImplicit] }

/-- C7 counterexample: `extra.cf.yaml` is scanned but its key is no declared
template reference, so an implicit source is appended — and because the only
declaration's NAME is `extra.cf.yaml`, the by-name lookup (last match) makes
`list_deployable()` return exactly that implicit source, refuting 'implicit
sources ... are never returned by list_deployable()'. -/
theorem c7_counterexample :
    buildCollection c7cFiles [c7cDecl] = .ok c7cCollection ∧
    c7cImplicit ∈ implicitList c7cFiles ([c7cDecl].map StackDecl.template) ∧
    c7cCollection.list_deployable = .ok [c7cImplicit] := by
  decide

/-- Scanned files for the C7 witness. -/
def c7wFiles : List (String × String) :=
  [("s.cf.yaml", "/t/s.cf.yaml"), ("extra.cf.yaml", "/t/extra.cf.yaml")]

/-- A declaration whose name does not collide with any scanned key. -/
def c7wDecl : StackDecl := { name := "svc", template := "s.cf.yaml" }

/-- The source bound to the declaration. -/
def c7wDeclaredT : CfnTemplate :=
  { template_key := "s.cf.yaml", params := c7wDecl, file_path := some "/t/s.cf.yaml" }

/-- The collection built from the witness manifest. -/
def c7wCollection : Collection :=
  { stackDecls := [c7wDecl],
    templates :=
      [c7wDeclaredT,
       { template_key := "extra.cf.yaml", params := implicitDecl "extra.cf.yaml",
         file_path := some "/t/extra.cf.yaml" }] }

/-- C7 witness: on the concrete build, the template list decomposes into the
declared source followed by the implicit ones, and the only source returned
by `list_deployable` is the declared one. -/
theorem c7_implicit_sources_witness :
    c7wCollection.templates =
      [c7wDeclaredT] ++ implicitList c7wFiles ([c7wDecl].map StackDecl.template) ∧
    c7wDeclaredT ∈ [c7wDeclaredT] := by
  have h := c7_implicit_sources c7wFiles [c7wDecl] [c7wDeclaredT] c7wCollection
    (by decide) (by decide)
  refine ⟨h.2.1, ?_⟩
  exact h.2.2.2.2 (by decide) [c7wDeclaredT] c7wDeclaredT (by decide) (by decide)

/-! ## C1 -/

/-- The basename contains no slash. -/
theorem basenameCs_no_slash (p : List Char) : ∀ c ∈ basenameCs p, (c == '/') = false := by
  intro c hc
  unfold basenameCs at hc
  rw [List.mem_reverse] at hc
  have := List.mem_takeWhile_imp hc
  simpa using this

/-- A string splits into its head part followed by its basename. -/
theorem headPart_append_basename (p : List Char) : headPartCs p ++ basenameCs p = p := by
  unfold headPartCs basenameCs
  rw [← List.reverse_append, List.takeWhile_append_dropWhile, List.reverse_reverse]

/-- Python `rstrip('/')` is the identity on a list whose last element is not a
slash. -/
theorem rstripSlashCs_eq_self (l : List Char)
    (h : ∀ c, l.getLast? = some c → (c == '/') = false) : rstripSlashCs l = l := by
  unfold rstripSlashCs
  cases hl : l.reverse with
  | nil =>
      rw [List.reverse_eq_nil_iff] at hl
      subst hl
      rfl
  | cons c cs =>
      have hlast : l.getLast? = some c := by
        rw [List.getLast?_eq_head?_reverse, hl]
        rfl
      have hc := h c hlast
      rw [List.dropWhile_cons, hc]
      simp only [Bool.false_eq_true, if_false]
      rw [← hl, List.reverse_reverse]

/-- The last element of `pi ++ (C ++ '-' :: b)` is a dash or an element of
`b`; in either case it is not a slash when `b` is slash-free. -/
theorem getLast_tail_no_slash (pi C b : List Char)
    (hb : ∀ c ∈ b, (c == '/') = false) :
    ∀ c, (pi ++ (C ++ '-' :: b)).getLast? = some c → (c == '/') = false := by
  intro c hc
  rw [List.getLast?_eq_head?_reverse] at hc
  rw [show (pi ++ (C ++ '-' :: b)).reverse =
        b.reverse ++ '-' :: (C.reverse ++ pi.reverse) by simp] at hc
  cases hbrev : b.reverse with
  | nil =>
      rw [hbrev] at hc
      simp only [List.nil_append, List.head?_cons, Option.some.injEq] at hc
      rw [← hc]
      decide
  | cons x xs =>
      rw [hbrev] at hc
      simp only [List.cons_append, List.head?_cons, Option.some.injEq] at hc
      have hxb : x ∈ b := List.mem_reverse.mp (by
        rw [hbrev]
        exact List.mem_cons_self x xs)
      rw [← hc]
      exact hb x hxb

/-- Python `lstrip('/')` of the joined key skips exactly the leading slashes of
`d ++ "/"` when the checksum is slash-free. -/
theorem lstrip_join_shape (d C b : List Char)
    (hC : ∀ c ∈ C, (c == '/') = false) :
    List.dropWhile (fun c => c == '/') (d ++ '/' :: (C ++ '-' :: b)) =
      List.dropWhile (fun c => c == '/') (d ++ ['/']) ++ (C ++ '-' :: b) := by
  rw [show d ++ '/' :: (C ++ '-' :: b) = (d ++ ['/']) ++ (C ++ '-' :: b) by simp]
  rw [List.dropWhile_append]
  by_cases he : (List.dropWhile (fun c => c == '/') (d ++ ['/'])).isEmpty = true
  · rw [if_pos he]
    rw [List.isEmpty_eq_true] at he
    rw [he, List.nil_append]
    cases C with
    | nil => simp [List.dropWhile_cons]
    | cons c cs =>
        have := hC c (List.mem_cons_self c cs)
        simp [List.dropWhile_cons, this]
  · rw [if_neg he]

/-- Python `strip('/')` of the joined non-predictable key: the trailing strip is a
no-op (the key ends in the dash or the slash-free basename), and the leading
strip only consumes slashes of the directory part, leaving the
checksum-dash-basename tail intact. -/
theorem stripSlashCs_join_shape (d C b : List Char)
    (hC : ∀ c ∈ C, (c == '/') = false) (hb : ∀ c ∈ b, (c == '/') = false) :
    stripSlashCs (d ++ '/' :: (C ++ '-' :: b)) =
      List.dropWhile (fun c => c == '/') (d ++ ['/']) ++ (C ++ '-' :: b) := by
  unfold stripSlashCs
  rw [lstrip_join_shape d C b hC]
  exact rstripSlashCs_eq_self _ (getLast_tail_no_slash _ C b hb)

/-- Python `rstrip('/')` keeps a non-slash head in place. -/
theorem rstripSlashCs_cons_head (c : Char) (hc : (c == '/') = false) (t : List Char) :
    ∃ r, rstripSlashCs (c :: t) = c :: r := by
  unfold rstripSlashCs
  rw [List.reverse_cons, List.dropWhile_append]
  by_cases he : (List.dropWhile (fun x => x == '/') t.reverse).isEmpty = true
  · rw [if_pos he]
    refine ⟨[], ?_⟩
    simp [List.dropWhile_cons, hc]
  · rw [if_neg he]
    refine ⟨(List.dropWhile (fun x => x == '/') t.reverse).reverse, ?_⟩
    rw [List.reverse_append]
    rfl

/-- For a key that does not start with a slash, the directory part is empty
or starts with the key's first (non-slash) character. -/
theorem dirnameCs_shape (p : List Char) (hp : p.head? ≠ some '/') :
    dirnameCs p = [] ∨ ∃ c r, dirnameCs p = c :: r ∧ (c == '/') = false := by
  unfold dirnameCs
  cases hh : headPartCs p with
  | nil =>
      left
      simp
  | cons c t =>
      have hsplit := headPart_append_basename p
      rw [hh] at hsplit
      have hcp : p.head? = some c := by
        rw [← hsplit]
        rfl
      have hc : ¬ (c = '/') := fun he => hp (by rw [hcp, he])
      have hcb : (c == '/') = false := by simpa using hc
      have hall : ((c :: t).all (fun x => x == '/')) = false := by
        simp [List.all_cons, hcb]
      right
      obtain ⟨r, hr⟩ := rstripSlashCs_cons_head c hcb t
      refine ⟨c, r, ?_, hcb⟩
      rw [hall]
      simp only [Bool.false_eq_true, if_false]
      exact hr

/-- The non-predictable remote key in closed form, for a relative logical
key and a slash-free checksum: the directory of the key (followed by a
slash when non-empty), then `<checksum>-<basename>`. -/
theorem build_s3_key_cs_shape (K C : List Char)
    (hC : ∀ c ∈ C, (c == '/') = false) (hK : K.head? ≠ some '/') :
    build_s3_key_cs false K C =
      (if dirnameCs K = [] then [] else dirnameCs K ++ ['/']) ++
        (C ++ '-' :: basenameCs K) := by
  unfold build_s3_key_cs
  simp only [Bool.false_eq_true, if_false]
  rw [stripSlashCs_join_shape (dirnameCs K) C (basenameCs K) hC (basenameCs_no_slash K)]
  congr 1
  rcases dirnameCs_shape K hK with h | ⟨c, r, hd, hc⟩
  · rw [h, if_pos rfl]
    rfl
  · rw [hd, if_neg (by simp)]
    rw [show (c :: r) ++ ['/'] = c :: (r ++ ['/']) by rfl]
    rw [List.dropWhile_cons, hc]
    simp

/-- Distinct slash-free checksums give distinct non-predictable remote keys
for the same logical key. -/
theorem build_s3_key_cs_inj (K C Cp : List Char)
    (hC : ∀ c ∈ C, (c == '/') = false) (hCp : ∀ c ∈ Cp, (c == '/') = false)
    (hne : C ≠ Cp) :
    build_s3_key_cs false K C ≠ build_s3_key_cs false K Cp := by
  intro heq
  apply hne
  unfold build_s3_key_cs at heq
  simp only [Bool.false_eq_true, if_false] at heq
  rw [stripSlashCs_join_shape _ _ _ hC (basenameCs_no_slash K),
      stripSlashCs_join_shape _ _ _ hCp (basenameCs_no_slash K)] at heq
  have h1 := List.append_cancel_left heq
  exact List.append_cancel_right h1

/-- C1: for a relative logical key `K` (no leading slash) and slash-free
checksums (hex digests contain no `'/'`): with the predictable-name flag
true the remote key is `K` verbatim regardless of checksum; otherwise it is
the directory of `K` joined with `<checksum>-<basename of K>` (no leading
slash when the directory is empty); and for a fixed `K`, two different
checksums always yield two different keys. -/
theorem c1_remote_key (d : StackDecl) (K C Cp : String)
    (hC : ∀ c ∈ C.data, (c == '/') = false)
    (hCp : ∀ c ∈ Cp.data, (c == '/') = false)
    (hK : K.data.head? ≠ some '/') :
    (d.isPredictable = true → build_s3_key d K C = K) ∧
    (d.isPredictable = false →
      (build_s3_key d K C).data =
        (if dirnameCs K.data = [] then [] else dirnameCs K.data ++ ['/']) ++
          (C.data ++ '-' :: basenameCs K.data)) ∧
    (d.isPredictable = false → C ≠ Cp →
      build_s3_key d K C ≠ build_s3_key d K Cp) := by
  refine ⟨?_, ?_, ?_⟩
  · intro hp
    unfold build_s3_key
    rw [hp]
    cases K with
    | mk kd => rfl
  · intro hp
    unfold build_s3_key
    rw [hp]
    exact build_s3_key_cs_shape K.data C.data hC hK
  · intro hp hne heq
    have hdata : build_s3_key_cs false K.data C.data =
        build_s3_key_cs false K.data Cp.data := by
      have hd := congrArg String.data heq
      unfold build_s3_key at hd
      rw [hp] at hd
      exact hd
    have hdne : C.data ≠ Cp.data := fun hd => hne (by
      cases C
      cases Cp
      exact congrArg String.mk hd)
    exact build_s3_key_cs_inj K.data C.data Cp.data hC hCp hdne hdata

/-- C1 witness: on the key `sub/a.cf.yaml` with two concrete hex checksums,
the predictable name is the key verbatim and the two content-addressed keys
differ. -/
theorem c1_remote_key_witness :
    build_s3_key { name := "n", template := "t", predictable_name := some true }
      "sub/a.cf.yaml" "0123abcd" = "sub/a.cf.yaml" ∧
    build_s3_key { name := "n", template := "t" } "sub/a.cf.yaml" "0123abcd" ≠
      build_s3_key { name := "n", template := "t" } "sub/a.cf.yaml" "4567ef01" := by
  constructor
  · exact (c1_remote_key { name := "n", template := "t", predictable_name := some true }
      "sub/a.cf.yaml" "0123abcd" "4567ef01" (by decide) (by decide) (by decide)).1 (by decide)
  · exact (c1_remote_key { name := "n", template := "t" }
      "sub/a.cf.yaml" "0123abcd" "4567ef01" (by decide) (by decide) (by decide)).2.2
      (by decide) (by decide)
